import Mathlib

/-!
Verification of the niworkflows nibabel-based interfaces
(`niworkflows/interfaces/nibabel.py`): `ApplyMask`, `Binarize`,
`SplitSeries` and `MergeSeries`.

A volumetric image is modelled as an n-dimensional array of rational voxel
values (a total function from multi-indices to values, together with the
list of axis sizes), a 4x4 affine given as a list of rows, and header
metadata carrying a dtype tag plus an opaque remainder.

The nibabel collaborator functions used by the interfaces
(`nb.squeeze_image`, `nb.four_to_three`, `nb.concat_images`) and
`np.allclose` are embedded following their actual library semantics:
  * `squeeze_image` removes only trailing singleton axes beyond the third
    and returns the image unchanged when nothing is removed;
  * `four_to_three` slices a 4-D image along its last axis, each slice
    keeping the affine and header of the 4-D image;
  * `concat_images` (with default `check_affines=True`, `axis=None`)
    requires every image to have the ndim, shape and exact affine of the
    first image, and stacks the data along a new trailing axis, taking
    affine and header from the first image;
  * `np.allclose` compares elementwise with `|a - b| <= atol + rtol * |b|`,
    `rtol = 1e-5`, `atol = 1e-8`.

File writes are abstracted: an operation returns the images it would write
(paired with the suffix tokens that label the output files), or the error
it raises.  Loading is abstracted away by passing `Image` values directly.

The module never imports `Path` (`from pathlib import Path` is missing),
yet `SplitSeries._run_interface` evaluates `Path(...)` when building every
output path (nibabel.py lines 117 and 129).  Both success paths of the
split therefore raise `NameError` before producing any output; this is
embedded as the error `Err.nameError`.
-/

/-- Header metadata: a dtype tag (as written by `set_data_dtype`) plus an
opaque remainder standing for every other header field. -/
structure Header where
  dtype : String
  meta : Nat
  deriving DecidableEq

/-- A volumetric image: axis sizes, voxel data as a total function on
multi-indices (only indices of length `shape.length` with components below
the axis sizes are meaningful), a 4x4 affine as a list of rows, and header
metadata.  `img.__class__(data, None, header)` is modelled as keeping the
image's affine, since a loaded image's affine is the one encoded in its
header. -/
@[ext]
structure Image where
  shape : List Nat
  data : List Nat → ℚ
  affine : List (List ℚ)
  header : Header

/-- Number of axes of an image, `img.dataobj.ndim`. -/
def Image.ndim (img : Image) : Nat := img.shape.length

/-- Errors raised by the interfaces: `ValueError("Image and mask sizes do
not match.")` is `shapeMismatch`; the affine `ValueError` of `ApplyMask`
and every `ValueError` raised by `nb.concat_images` on inconsistent inputs
is `geometryMismatch`; the dimensionality `RuntimeError`/`ValueError` of
`SplitSeries`/`MergeSeries` is `dimensionError`; `emptyInput` is the
`ValueError` of `nb.concat_images` on an empty list; `nameError` is the
Python `NameError` raised by `SplitSeries` when it evaluates the
unimported name `Path` (nibabel.py:117 and nibabel.py:129). -/
inductive Err where
  | shapeMismatch
  | geometryMismatch
  | dimensionError
  | emptyInput
  | nameError
  deriving DecidableEq

/-- Absolute value of a rational, written out so that it evaluates by
kernel reduction. -/
def aabs (a : ℚ) : ℚ := if a < 0 then -a else a

/-- Elementwise closeness of `np.allclose`: `|a - b| <= atol + rtol * |b|`
with the numpy defaults `rtol = 1e-5`, `atol = 1e-8`. -/
def isclose (a b : ℚ) : Bool :=
  decide (aabs (a - b) ≤ 1 / 100000000 + (1 / 100000) * aabs b)

/-- `np.allclose` on 4x4 affines stored as lists of rows. -/
def allclose (A B : List (List ℚ)) : Bool :=
  A.length == B.length &&
    (A.zip B).all fun p =>
      p.1.length == p.2.length && (p.1.zip p.2).all fun q => isclose q.1 q.2

/-- `ApplyMask._run_interface`: binarize the mask by `> threshold`, check
`img.dataobj.shape[:3] != msk.shape`, check `np.allclose` of the affines,
add a trailing axis to the mask when `img.dataobj.ndim == msk.ndim + 1`,
and output `img.__class__(img.dataobj * msk, None, img.header)`. -/
def applyMask (img msknii : Image) (threshold : ℚ) : Except Err Image :=
  if img.shape.take 3 ≠ msknii.shape then .error .shapeMismatch
  else if ¬ allclose img.affine msknii.affine then .error .geometryMismatch
  else
    .ok { shape := img.shape
          data := fun idx =>
            let midx :=
              if img.shape.length = msknii.shape.length + 1
              then idx.take msknii.shape.length else idx
            if msknii.data midx > threshold then img.data idx else 0
          affine := img.affine
          header := img.header }

/-- The two outputs of `Binarize._run_interface`: `out_file` is the masked
image, `out_mask` the binary mask image. -/
structure BinarizeOut where
  out_file : Image
  out_mask : Image

/-- `Binarize._run_interface`: `mask = data > thresh_low`;
`data[~mask] = 0.0`; `out_file = img.__class__(data, img.affine,
img.header)`; then the header dtype is set to `'uint8'` and
`out_mask = img.__class__(mask.astype('uint8'), img.affine, header)`.
The header passed to the first constructor is copied before the dtype
mutation, so `out_file` keeps the original dtype tag. -/
def binarize (img : Image) (thresh_low : ℚ) : BinarizeOut :=
  { out_file :=
      { shape := img.shape
        data := fun idx => if img.data idx > thresh_low then img.data idx else 0
        affine := img.affine
        header := img.header }
    out_mask :=
      { shape := img.shape
        data := fun idx => if img.data idx > thresh_low then 1 else 0
        affine := img.affine
        header := { dtype := "uint8", meta := img.header.meta } } }

/-- Length of the run of trailing `1`s of a list of axis sizes. -/
def trailingOnes (l : List Nat) : Nat :=
  (l.reverse.takeWhile fun x => x == 1).length

/-- `nb.squeeze_image`: images of fewer than 3 axes are returned unchanged;
otherwise the maximal run of trailing singleton axes beyond the third is
dropped (a C-order reshape, so the dropped trailing indices are pinned to
0); if no axis is dropped the image is returned unchanged. -/
def squeeze_image (img : Image) : Image :=
  if img.shape.length < 3 then img
  else if trailingOnes (img.shape.drop 3) = 0 then img
  else
    { shape := img.shape.take (img.shape.length - trailingOnes (img.shape.drop 3))
      data := fun idx => img.data (idx ++ List.replicate (trailingOnes (img.shape.drop 3)) 0)
      affine := img.affine
      header := img.header }

/-- `nb.four_to_three` on a 4-D image: one 3-D slice per index of the last
axis, in order, each slice keeping the affine and header. -/
def four_to_three (img : Image) : List Image :=
  (List.range (img.shape.getD 3 0)).map fun i =>
    { shape := img.shape.take 3
      data := fun idx => img.data (idx ++ [i])
      affine := img.affine
      header := img.header }

/-- `nb.concat_images` with the default `check_affines=True`, `axis=None`:
fails on an empty list; requires every image to have the ndim, the shape
and the exact affine (`np.all(img.affine == affine)`) of the first image;
stacks the data along a new trailing axis and takes affine and header from
the first image. -/
def concat_images : List Image → Except Err Image
  | [] => .error .emptyInput
  | img0 :: rest =>
    if ∀ img ∈ img0 :: rest,
        img.shape.length = img0.shape.length ∧
        img.shape = img0.shape ∧ img.affine = img0.affine then
      .ok { shape := img0.shape ++ [(img0 :: rest).length]
            data := fun idx =>
              ((img0 :: rest).getD (idx.getLastD 0) img0).data idx.dropLast
            affine := img0.affine
            header := img0.header }
    else .error .geometryMismatch

/-- `SplitSeries._run_interface`: squeeze the input; if the result is not
4-D, raise the dimension `RuntimeError` unless `accept_3D` is set and the
result is 3-D — but that branch evaluates `Path`, a name the module never
imports, so it raises `NameError` (nibabel.py:117) before assigning or
writing any output.  In the 4-D case the volume is sliced with
`nb.four_to_three` and the output loop's first iteration evaluates the
same unimported `Path`, raising `NameError` (nibabel.py:129) before any
write — unless the last axis has extent 0, in which case the loop body
never runs and the interface returns an empty output list. -/
def splitSeries (in_file : Image) (accept_3D : Bool) :
    Except Err (List (String × Image)) :=
  let filenii := squeeze_image in_file
  let ndim := filenii.shape.length
  if ndim ≠ 4 then
    if accept_3D ∧ ndim = 3 then .error .nameError
    else .error .dimensionError
  else if (four_to_three filenii).length = 0 then .ok []
  else .error .nameError

/-- One iteration of the `MergeSeries` loop body: squeeze the input; keep a
3-D volume as a single frame; expand a 4-D volume with `four_to_three`
when `allow_4D`; otherwise raise. -/
def expandOne (allow_4D : Bool) (f : Image) : Except Err (List Image) :=
  if (squeeze_image f).shape.length = 3 then .ok [squeeze_image f]
  else if allow_4D ∧ (squeeze_image f).shape.length = 4 then
    .ok (four_to_three (squeeze_image f))
  else .error .dimensionError

/-- The `MergeSeries` accumulation loop: process the inputs left to right,
appending the frames each contributes, stopping at the first failure. -/
def accumulate (allow_4D : Bool) : List Image → Except Err (List Image)
  | [] => .ok []
  | f :: rest =>
    match expandOne allow_4D f with
    | .error e => .error e
    | .ok part =>
      match accumulate allow_4D rest with
      | .error e => .error e
      | .ok parts => .ok (part ++ parts)

/-- `MergeSeries._run_interface`: accumulate the 3-D frames of all inputs
in order, then concatenate them with `nb.concat_images`. -/
def mergeSeries (in_files : List Image) (allow_4D : Bool) : Except Err Image :=
  match accumulate allow_4D in_files with
  | .error e => .error e
  | .ok nii_list => concat_images nii_list

/-- Default image used with `List.getD` in theorem statements. -/
def dImage : Image :=
  { shape := [], data := fun _ => 0, affine := [], header := ⟨"", 0⟩ }

/-! ### Concrete images used by witnesses and counterexamples -/

/-- The 4x4 identity affine. -/
def eye4 : List (List ℚ) := [[1,0,0,0],[0,1,0,0],[0,0,1,0],[0,0,0,1]]

/-- An affine clearly beyond the `np.allclose` tolerance from `eye4`. -/
def affFar : List (List ℚ) := [[2,0,0,0],[0,1,0,0],[0,0,1,0],[0,0,0,1]]

/-- A baseline header. -/
def hd0 : Header := ⟨"float64", 0⟩

/-- A concrete 3-D image. -/
def cI3 : Image := ⟨[2,2,2], fun _ => 5, eye4, hd0⟩

/-- A concrete 3-D mask whose first plane exceeds 1/2. -/
def cM3 : Image := ⟨[2,2,2], fun idx => if idx.headD 0 = 0 then 1 else 0, eye4, hd0⟩

/-- A 2-D image (wrong shape as a mask for `cI3`). -/
def cMbad : Image := ⟨[2,2], fun _ => 1, eye4, hd0⟩

/-- A 3-D mask with an affine far from `eye4`. -/
def cMaff : Image := ⟨[2,2,2], fun _ => 1, affFar, hd0⟩

/-- A 4-D mask whose first three axes match `cI3` and whose affine is
`eye4`. -/
def cMsk4 : Image := ⟨[2,2,2,1], fun _ => 1, eye4, hd0⟩

/-- A concrete 4-D image of shape `[2,2,2,3]`, used by the C5 witness. -/
def cI4 : Image := ⟨[2,2,2,3], fun idx => (idx.getLastD 0 : ℚ), eye4, hd0⟩

/-- Concrete 3-D frames with identical geometry used by the C7 witness. -/
def cP : Image := ⟨[1,1,1], fun _ => 1, eye4, hd0⟩

/-- Second frame for the C7 witness. -/
def cQ : Image := ⟨[1,1,1], fun _ => 2, eye4, hd0⟩

/-- A 5-D image that stays 5-D after squeezing (no trailing singletons). -/
def c5D : Image := ⟨[1,1,1,2,2], fun _ => 0, eye4, hd0⟩

/-- A 3-D frame whose shape differs from `cP`. -/
def cG2 : Image := ⟨[2,1,1], fun _ => 2, eye4, hd0⟩

/-- The frames accumulated from `[cP, cG2]`. -/
def cGframes : List Image := (accumulate true [cP, cG2]).toOption.getD []

/-- An affine differing from `eye4` by `1e-12`, far inside the
`np.allclose` tolerance. -/
def eyeEps : List (List ℚ) :=
  [[1 + 1/1000000000000,0,0,0],[0,1,0,0],[0,0,1,0],[0,0,0,1]]

/-- A 3-D frame with the same shape as `cP` and the affine `eyeEps`. -/
def cH2 : Image := ⟨[1,1,1], fun _ => 3, eyeEps, hd0⟩

/-- Third frame with the same geometry and header as `cP`, `cQ`. -/
def cR : Image := ⟨[1,1,1], fun _ => 3, eye4, hd0⟩

/-- Observable events of a run: writing an output file (identified by its
suffix token) or raising an error. -/
inductive Event where
  | write (tag : String)
  | fail (e : Err)
  deriving DecidableEq

/-- Whether an event is a raised error. -/
def isFail : Event → Bool
  | .fail _ => true
  | .write _ => false

/-- Whether an event is a file write. -/
def isWrite : Event → Bool
  | .write _ => true
  | .fail _ => false

/-- A trace leaves no partial output: if it raises at all, it performs no
write. -/
def noPartialWrite (t : List Event) : Bool :=
  !(t.any isFail) || t.all fun ev => !(isWrite ev)

/-- Events of `ApplyMask._run_interface` in program order: the
output-path assignment before validation is not a file write; the shape
check may raise, then the affine check may raise, and only then is the
masked image written.  The threshold plays no role in control flow. -/
def applyMaskTrace (img msknii : Image) : List Event :=
  if img.shape.take 3 ≠ msknii.shape then [.fail .shapeMismatch]
  else if ¬ allclose img.affine msknii.affine then [.fail .geometryMismatch]
  else [.write "out_file"]

/-- Events of `Binarize._run_interface`: no validation, two writes, in
program order `out_file` then `out_mask`, independent of the input. -/
def binarizeTrace (_img : Image) : List Event :=
  [.write "out_file", .write "out_mask"]

/-- Events of `SplitSeries._run_interface` in program order: the
dimensionality check may raise the dimension error; the `accept_3D`
branch raises `NameError` on the unimported `Path` before its write; in
the 4-D case the loop's first iteration raises the same `NameError`
before its write, so the only write-free success is an empty last axis,
which produces no events at all. -/
def splitSeriesTrace (in_file : Image) (accept_3D : Bool) : List Event :=
  if (squeeze_image in_file).shape.length ≠ 4 then
    if accept_3D ∧ (squeeze_image in_file).shape.length = 3 then
      [.fail .nameError]
    else [.fail .dimensionError]
  else if (four_to_three (squeeze_image in_file)).length = 0 then []
  else [.fail .nameError]

/-- Events of `MergeSeries._run_interface` in program order: the loop may
raise on a frame, the concatenation may raise, and only then is the merged
image written. -/
def mergeSeriesTrace (in_files : List Image) (allow_4D : Bool) : List Event :=
  match accumulate allow_4D in_files with
  | .error e => [.fail e]
  | .ok nii_list =>
    match concat_images nii_list with
    | .error e => [.fail e]
    | .ok _ => [.write "_merged"]

/-! ### Claims about `ApplyMask` and `Binarize` -/

/-- C2: for every image (3-D or 4-D, per the data model) and mask whose
shape equals the image's spatial (first-3-axis) shape, with numerically
close affines, `applyMask` succeeds; the output affine and header are
copied from the image, and on every valid index the output equals the
image where the mask exceeds the threshold and is `0` elsewhere, the mask
being broadcast over the trailing axis when the image has one more axis
than the mask. -/
theorem applyMask_masks_correctly (img msk : Image) (t : ℚ)
    (hdim : img.shape.length = 3 ∨ img.shape.length = 4)
    (hsh : img.shape.take 3 = msk.shape)
    (haf : allclose img.affine msk.affine = true) :
    ∃ out, applyMask img msk t = .ok out ∧
      out.shape = img.shape ∧ out.affine = img.affine ∧ out.header = img.header ∧
      ∀ idx : List Nat, idx.length = img.shape.length →
        (msk.data (idx.take 3) > t → out.data idx = img.data idx) ∧
        (¬ msk.data (idx.take 3) > t → out.data idx = 0) := by
  have hnot : ¬ img.shape.take 3 ≠ msk.shape := not_not_intro hsh
  have haf' : ¬ ¬ (allclose img.affine msk.affine = true) := not_not_intro haf
  rw [applyMask, if_neg hnot, if_neg haf']
  have hmsk3 : msk.shape.length = 3 := by
    rcases hdim with h3 | h4
    · rw [← hsh, List.length_take, h3]; omega
    · rw [← hsh, List.length_take, h4]; omega
  refine ⟨_, rfl, rfl, rfl, rfl, ?_⟩
  intro idx hlen
  rcases hdim with h3 | h4
  · have hcond : ¬ (img.shape.length = msk.shape.length + 1) := by omega
    have htake : idx.take 3 = idx := List.take_of_length_le (by omega)
    constructor <;> intro hc <;> simp only [hcond, if_false, htake] at * <;>
      simp [hc]
  · have hcond : img.shape.length = msk.shape.length + 1 := by omega
    constructor <;> intro hc <;>
      simp only [hcond, if_true, hmsk3] at * <;> simp [hc]

/-- C2 witness: the theorem applied to the concrete `cI3`, `cM3` at
threshold 1/2. -/
theorem applyMask_masks_correctly_witness :
    (cI3.shape.length = 3 ∨ cI3.shape.length = 4) ∧
    cI3.shape.take 3 = cM3.shape ∧
    allclose cI3.affine cM3.affine = true ∧
    (∃ out, applyMask cI3 cM3 (1/2) = .ok out ∧
      out.shape = cI3.shape ∧ out.affine = cI3.affine ∧ out.header = cI3.header ∧
      ∀ idx : List Nat, idx.length = cI3.shape.length →
        (cM3.data (idx.take 3) > 1/2 → out.data idx = cI3.data idx) ∧
        (¬ cM3.data (idx.take 3) > 1/2 → out.data idx = 0)) :=
  ⟨Or.inl (by decide), by decide,
    by norm_num [allclose, isclose, aabs, cI3, cM3, eye4],
    applyMask_masks_correctly cI3 cM3 (1/2) (Or.inl (by decide))
      (by decide) (by norm_num [allclose, isclose, aabs, cI3, cM3, eye4])⟩

/-- C3: `applyMask` raises the shape error whenever the spatial
(first-3-axis) shapes of image and mask differ, for any voxel values and
threshold; and it raises the geometry error whenever the shape validation
passes but the affines are not `np.allclose`. -/
theorem applyMask_error_cases (img1 msk1 : Image) (t1 : ℚ)
    (img2 msk2 : Image) (t2 : ℚ)
    (h1 : img1.shape.take 3 ≠ msk1.shape.take 3)
    (h2 : img2.shape.take 3 = msk2.shape)
    (h3 : ¬ allclose img2.affine msk2.affine = true) :
    applyMask img1 msk1 t1 = .error .shapeMismatch ∧
    applyMask img2 msk2 t2 = .error .geometryMismatch := by
  constructor
  · have hne : img1.shape.take 3 ≠ msk1.shape := by
      intro he
      have hlen : msk1.shape.length ≤ 3 := by
        rw [← he, List.length_take]; omega
      exact h1 (by rw [he, List.take_of_length_le hlen])
    simp [applyMask, hne]
  · have hnot : ¬ img2.shape.take 3 ≠ msk2.shape := not_not_intro h2
    rw [applyMask, if_neg hnot, if_pos h3]

/-- C3 witness: a 2-D mask triggers the shape error on `cI3`; a mask with
a far-off affine and matching shape triggers the geometry error. -/
theorem applyMask_error_cases_witness :
    cI3.shape.take 3 ≠ cMbad.shape.take 3 ∧
    cI3.shape.take 3 = cMaff.shape ∧
    ¬ allclose cI3.affine cMaff.affine = true ∧
    applyMask cI3 cMbad 0 = .error .shapeMismatch ∧
    applyMask cI3 cMaff 0 = .error .geometryMismatch := by
  have haf : ¬ allclose cI3.affine cMaff.affine = true := by
    norm_num [allclose, isclose, aabs, cI3, cMaff, eye4, affFar]
  exact ⟨by decide, by decide, haf,
    (applyMask_error_cases cI3 cMbad 0 cI3 cMaff 0
      (by decide) (by decide) haf).1,
    (applyMask_error_cases cI3 cMbad 0 cI3 cMaff 0
      (by decide) (by decide) haf).2⟩

/-- C4: for every image and threshold, `binarize` returns a mask image
whose data is `1` where the image exceeds the threshold and `0` elsewhere
(so always in {0,1}), with the dtype tag overridden to `uint8`, the rest
of the header and the affine copied from the image; and a masked image
equal to the image where the mask is true and `0` elsewhere, with affine
and header (hence dtype) copied unchanged from the image.  `binarize`
performs no validation: it is a total function on images. -/
theorem binarize_spec (img : Image) (t : ℚ) :
    (∀ idx, (binarize img t).out_mask.data idx =
      if img.data idx > t then 1 else 0) ∧
    (∀ idx, (binarize img t).out_mask.data idx = 0 ∨
      (binarize img t).out_mask.data idx = 1) ∧
    (binarize img t).out_mask.header.dtype = "uint8" ∧
    (binarize img t).out_mask.header.meta = img.header.meta ∧
    (binarize img t).out_mask.affine = img.affine ∧
    (binarize img t).out_mask.shape = img.shape ∧
    (∀ idx, (binarize img t).out_file.data idx =
      if img.data idx > t then img.data idx else 0) ∧
    (binarize img t).out_file.affine = img.affine ∧
    (binarize img t).out_file.header = img.header ∧
    (binarize img t).out_file.shape = img.shape := by
  refine ⟨fun idx => rfl, fun idx => ?_, rfl, rfl, rfl, rfl,
    fun idx => rfl, rfl, rfl, rfl⟩
  by_cases h : img.data idx > t <;> simp [binarize, h]

/-- C10: `applyMask` compares the image's first three axes against the
mask's full shape, so every 4-D mask is rejected with the shape error,
even when its first three axes and affine match the image. -/
theorem applyMask_rejects_4d_mask (img msknii : Image) (t : ℚ)
    (h4 : msknii.shape.length = 4) :
    applyMask img msknii t = .error .shapeMismatch := by
  have hlen : (img.shape.take 3).length ≤ 3 := by
    simp [List.length_take]
  have hne : img.shape.take 3 ≠ msknii.shape := by
    intro he; rw [he, h4] at hlen; omega
  simp [applyMask, hne]

/-- C10 witness: the 4-D mask `cMsk4` has the same first three axes and
the same affine as `cI3`, yet `applyMask` raises the shape error. -/
theorem applyMask_rejects_4d_mask_witness :
    cMsk4.shape.length = 4 ∧
    cMsk4.shape.take 3 = cI3.shape.take 3 ∧
    allclose cI3.affine cMsk4.affine = true ∧
    applyMask cI3 cMsk4 (1/2) = .error .shapeMismatch :=
  ⟨by decide, by decide,
    by norm_num [allclose, isclose, aabs, cI3, cMsk4, eye4],
    applyMask_rejects_4d_mask cI3 cMsk4 (1/2) (by decide)⟩

/-! ### Claims about `SplitSeries` -/

lemma splitSeries_name_error_of_4d (img : Image) (acc : Bool)
    (h4 : (squeeze_image img).shape.length = 4)
    (hN : (squeeze_image img).shape.getD 3 0 ≠ 0) :
    splitSeries img acc = .error .nameError := by
  have hlen : (four_to_three (squeeze_image img)).length =
      (squeeze_image img).shape.getD 3 0 := by
    simp [four_to_three]
  simp only [splitSeries, h4, hlen]
  simp
  intro h0
  exact hN ((List.getD_eq_getElem?_getD _ _ _).trans h0)

/-- C5 (code bug): the claim describes the behaviour the docstring and
the spec intend, but the code cannot deliver it: on every input whose
squeezed form is 4-D with a non-empty last axis, the output loop
evaluates `Path` — a name the module never imports — and raises
`NameError` (nibabel.py:129) on its first iteration, before writing any
output, instead of producing the claimed labelled 3-D volumes. -/
theorem splitSeries_4d_name_error (img : Image) (accept_3D : Bool)
    (h4 : (squeeze_image img).shape.length = 4)
    (hN : (squeeze_image img).shape.getD 3 0 ≠ 0) :
    splitSeries img accept_3D = .error .nameError :=
  splitSeries_name_error_of_4d img accept_3D h4 hN

/-- C5 witness: the failing evaluation at the concrete 4-D image `cI4`. -/
theorem splitSeries_4d_name_error_witness :
    (squeeze_image cI4).shape.length = 4 ∧
    (squeeze_image cI4).shape.getD 3 0 ≠ 0 ∧
    splitSeries cI4 false = .error .nameError :=
  ⟨by decide, by decide,
    splitSeries_4d_name_error cI4 false (by decide) (by decide)⟩

/-- C6 (code bug): on an input whose squeezed form is 3-D,
`splitSeries` raises the dimension error when `accept_3D` is off, as
claimed, and raises the dimension error for any squeezed dimensionality
outside {3, 4}, as claimed; but with `accept_3D` on it raises
`NameError` from the unimported `Path` (nibabel.py:117) instead of
returning the squeezed volume labelled `_idx-000`, contradicting the
claim and the trait's own description (`do not fail if a 3D volume is
passed in`). -/
theorem splitSeries_dim_and_name_error (img1 img2 img3 : Image) (acc3 : Bool)
    (h1 : (squeeze_image img1).shape.length = 3)
    (h2 : (squeeze_image img2).shape.length = 3)
    (h3 : (squeeze_image img3).shape.length ≠ 3 ∧
      (squeeze_image img3).shape.length ≠ 4) :
    splitSeries img1 false = .error .dimensionError ∧
    splitSeries img2 true = .error .nameError ∧
    splitSeries img3 acc3 = .error .dimensionError := by
  refine ⟨?_, ?_, ?_⟩
  · simp [splitSeries, h1]
  · simp [splitSeries, h2]
  · simp [splitSeries, h3.1, h3.2]

/-- C6 witness: the theorem applied to the 3-D `cI3` (both settings of
`accept_3D`) and to the 2-D `cMbad`. -/
theorem splitSeries_dim_and_name_error_witness :
    (squeeze_image cI3).shape.length = 3 ∧
    ((squeeze_image cMbad).shape.length ≠ 3 ∧
      (squeeze_image cMbad).shape.length ≠ 4) ∧
    splitSeries cI3 false = .error .dimensionError ∧
    splitSeries cI3 true = .error .nameError ∧
    splitSeries cMbad false = .error .dimensionError :=
  ⟨by decide, ⟨by decide, by decide⟩,
    (splitSeries_dim_and_name_error cI3 cI3 cMbad false (by decide) (by decide)
      ⟨by decide, by decide⟩).1,
    (splitSeries_dim_and_name_error cI3 cI3 cMbad false (by decide) (by decide)
      ⟨by decide, by decide⟩).2.1,
    (splitSeries_dim_and_name_error cI3 cI3 cMbad false (by decide) (by decide)
      ⟨by decide, by decide⟩).2.2⟩


/-! ### Helper lemmas about squeezing, accumulation and concatenation -/

lemma squeeze_of_len3 (img : Image) (h : img.shape.length = 3) :
    squeeze_image img = img := by
  have hd : img.shape.drop 3 = [] := List.drop_eq_nil_of_le (by omega)
  simp [squeeze_image, h, hd, trailingOnes]

lemma expandOne_threeD (allow : Bool) (f : Image) (part : List Image)
    (h : expandOne allow f = .ok part) : ∀ g ∈ part, g.shape.length = 3 := by
  unfold expandOne at h
  split at h
  · injection h with h
    subst h
    intro g hg
    rcases List.mem_singleton.mp hg with rfl
    assumption
  · split at h
    · rename_i hc4
      injection h with h
      subst h
      intro g hg
      rcases List.mem_map.mp hg with ⟨i, hi, rfl⟩
      have h4 := hc4.2
      simp only [List.length_take]
      omega
    · cases h

lemma expandOne_error_is_dim (allow : Bool) (f : Image) (e : Err)
    (h : expandOne allow f = .error e) : e = .dimensionError := by
  unfold expandOne at h
  split at h
  · cases h
  · split at h
    · cases h
    · injection h with h
      exact h.symm

lemma accumulate_threeD (allow : Bool) :
    ∀ (files : List Image) (frames : List Image),
      accumulate allow files = .ok frames → ∀ g ∈ frames, g.shape.length = 3
  | [], frames, h => by
    rw [accumulate] at h
    injection h with h
    subst h
    intro g hg
    cases hg
  | f :: rest, frames, h => by
    rw [accumulate] at h
    cases he : expandOne allow f with
    | error e => rw [he] at h; cases h
    | ok part =>
      rw [he] at h
      cases ha : accumulate allow rest with
      | error e => rw [ha] at h; cases h
      | ok parts =>
        rw [ha] at h
        injection h with h
        subst h
        intro g hg
        rcases List.mem_append.mp hg with h1 | h2
        · exact expandOne_threeD allow f part he g h1
        · exact accumulate_threeD allow rest parts ha g h2

lemma accumulate_error_is_dim (allow : Bool) :
    ∀ (files : List Image) (e : Err),
      accumulate allow files = .error e → e = .dimensionError
  | [], e, h => by rw [accumulate] at h; cases h
  | f :: rest, e, h => by
    rw [accumulate] at h
    cases he : expandOne allow f with
    | error e2 =>
      rw [he] at h
      injection h with h
      subst h
      exact expandOne_error_is_dim allow f _ he
    | ok part =>
      rw [he] at h
      cases ha : accumulate allow rest with
      | error e2 =>
        rw [ha] at h
        injection h with h
        subst h
        exact accumulate_error_is_dim allow rest _ ha
      | ok parts => rw [ha] at h; cases h

lemma accumulate_fails_of_mem (allow : Bool) (f : Image) (e : Err)
    (he : expandOne allow f = .error e) :
    ∀ files : List Image, f ∈ files →
      ∃ e2, accumulate allow files = .error e2
  | [], hf => by cases hf
  | a :: rest, hf => by
    rw [accumulate]
    rcases List.mem_cons.mp hf with rfl | hf2
    · rw [he]
      exact ⟨e, rfl⟩
    · cases ha : expandOne allow a with
      | error e3 => exact ⟨e3, rfl⟩
      | ok part =>
        obtain ⟨e2, h2⟩ := accumulate_fails_of_mem allow f e he rest hf2
        rw [h2]
        exact ⟨e2, rfl⟩

lemma expandOne_of_len3 (allow : Bool) (f : Image)
    (h : (squeeze_image f).shape.length = 3) :
    expandOne allow f = .ok [squeeze_image f] := by
  unfold expandOne
  rw [if_pos h]

lemma accumulate_cons (allow : Bool) (f : Image) (rest : List Image)
    (part parts : List Image) (h1 : expandOne allow f = .ok part)
    (h2 : accumulate allow rest = .ok parts) :
    accumulate allow (f :: rest) = .ok (part ++ parts) := by
  rw [accumulate, h1, h2]

lemma squeeze_id_of_no_trailing (img : Image) (h : ¬ img.shape.length < 3)
    (h2 : trailingOnes (img.shape.drop 3) = 0) : squeeze_image img = img := by
  unfold squeeze_image
  rw [if_neg h, if_pos h2]

lemma concat_images_mismatch (frames : List Image) (g : Image)
    (hg : g ∈ frames)
    (hbad : g.shape ≠ (frames.headD dImage).shape ∨
      g.affine ≠ (frames.headD dImage).affine) :
    concat_images frames = .error .geometryMismatch := by
  cases frames with
  | nil => cases hg
  | cons f0 rest =>
    simp only [concat_images]
    rw [if_neg]
    intro hall
    obtain ⟨-, hsh, haf⟩ := hall g hg
    rcases hbad with hb | hb
    · exact hb (by simpa using hsh)
    · exact hb (by simpa using haf)

lemma getD_append_length (l : List Nat) (a : Nat) :
    (l ++ [a]).getD l.length 0 = a := by
  induction l with
  | nil => rfl
  | cons x xs ih => simp [ih]

/-! ### Claims about `MergeSeries` -/

/-- C7: whenever `mergeSeries` accepts a non-empty input list, its output
is a single 4-D volume: the frames accumulated from the inputs (in input
order, a 4-D input contributing its slices in their internal order) are
stacked along a new trailing axis, the `i`-th accumulated frame becoming
the slice at last-axis index `i`; affine and header are those of the first
accumulated frame. -/
theorem mergeSeries_output_spec (files : List Image) (allow : Bool)
    (hne : files ≠ [])
    (hok : ∃ o, mergeSeries files allow = .ok o) :
    ∃ out frames, mergeSeries files allow = .ok out ∧
      accumulate allow files = .ok frames ∧ frames ≠ [] ∧
      (∀ g ∈ frames, g.shape.length = 3) ∧
      out.shape = (frames.headD dImage).shape ++ [frames.length] ∧
      out.shape.length = 4 ∧
      out.affine = (frames.headD dImage).affine ∧
      out.header = (frames.headD dImage).header ∧
      ∀ i, i < frames.length → ∀ idx : List Nat,
        out.data (idx ++ [i]) = (frames.getD i dImage).data idx := by
  obtain ⟨o, ho⟩ := hok
  cases hacc : accumulate allow files with
  | error e => rw [mergeSeries, hacc] at ho; cases ho
  | ok frames =>
    rw [mergeSeries, hacc] at ho
    cases frames with
    | nil => exact Except.noConfusion ho
    | cons f0 rest =>
      have hred : concat_images (f0 :: rest) = .ok o := ho
      have hthree := accumulate_threeD allow files (f0 :: rest) hacc
      have hf0 : f0.shape.length = 3 := hthree f0 (by simp)
      by_cases hall : ∀ img ∈ f0 :: rest,
          img.shape.length = f0.shape.length ∧
          img.shape = f0.shape ∧ img.affine = f0.affine
      · simp only [concat_images] at hred
        rw [if_pos hall] at hred
        injection hred with hrec
        refine ⟨o, f0 :: rest, by rw [mergeSeries, hacc]; exact ho, rfl,
          by simp, hthree, ?_, ?_, ?_, ?_, ?_⟩
        · rw [← hrec]; rfl
        · rw [← hrec]; simp [hf0]
        · rw [← hrec]; rfl
        · rw [← hrec]; rfl
        · intro i hi idx
          rw [← hrec]
          show ((f0 :: rest).getD ((idx ++ [i]).getLastD 0) f0).data
              (idx ++ [i]).dropLast = ((f0 :: rest).getD i dImage).data idx
          rw [List.getLastD_concat, List.dropLast_concat,
            List.getD_eq_getElem _ _ hi, List.getD_eq_getElem _ _ hi]
      · simp only [concat_images] at hred
        rw [if_neg hall] at hred
        exact Except.noConfusion hred

/-- C7 witness: the theorem applied to the concrete two-frame input
`[cP, cQ]`, whose merge succeeds. -/
theorem mergeSeries_output_spec_witness :
    ([cP, cQ] ≠ []) ∧ (∃ o, mergeSeries [cP, cQ] true = .ok o) ∧
    (∃ out frames, mergeSeries [cP, cQ] true = .ok out ∧
      accumulate true [cP, cQ] = .ok frames ∧ frames ≠ [] ∧
      (∀ g ∈ frames, g.shape.length = 3) ∧
      out.shape = (frames.headD dImage).shape ++ [frames.length] ∧
      out.shape.length = 4 ∧
      out.affine = (frames.headD dImage).affine ∧
      out.header = (frames.headD dImage).header ∧
      ∀ i, i < frames.length → ∀ idx : List Nat,
        out.data (idx ++ [i]) = (frames.getD i dImage).data idx) :=
  ⟨by simp, ⟨(mergeSeries [cP, cQ] true).toOption.getD dImage, rfl⟩,
    mergeSeries_output_spec [cP, cQ] true (by simp)
      ⟨(mergeSeries [cP, cQ] true).toOption.getD dImage, rfl⟩⟩

/-- C8 (amended): `mergeSeries` raises the dimension error whenever some
input's squeezed form is neither 3-D nor, with `allow_4D` on, 4-D; and it
raises the geometry error whenever some accumulated frame differs from the
first accumulated frame in shape or in affine — the affine comparison of
the underlying concatenation being exact equality, not a numeric
tolerance. -/
theorem mergeSeries_error_cases
    (files1 : List Image) (allow1 : Bool) (f : Image)
    (files2 : List Image) (allow2 : Bool) (frames : List Image) (g : Image)
    (h1 : f ∈ files1)
    (h2 : ¬ ((squeeze_image f).shape.length = 3 ∨
      (allow1 = true ∧ (squeeze_image f).shape.length = 4)))
    (h3 : accumulate allow2 files2 = .ok frames)
    (h4 : g ∈ frames)
    (h5 : g.shape ≠ (frames.headD dImage).shape ∨
      g.affine ≠ (frames.headD dImage).affine) :
    mergeSeries files1 allow1 = .error .dimensionError ∧
    mergeSeries files2 allow2 = .error .geometryMismatch := by
  constructor
  · have hexp : expandOne allow1 f = .error .dimensionError := by
      unfold expandOne
      rw [if_neg fun hc => h2 (Or.inl hc), if_neg fun hc => h2 (Or.inr hc)]
    obtain ⟨e2, he2⟩ :=
      accumulate_fails_of_mem allow1 f .dimensionError hexp files1 h1
    have he2dim : e2 = .dimensionError :=
      accumulate_error_is_dim allow1 files1 e2 he2
    subst he2dim
    rw [mergeSeries, he2]
  · rw [mergeSeries, h3]
    exact concat_images_mismatch frames g h4 h5

/-- C8 witness: a 5-D input triggers the dimension error; two 3-D frames
of different shapes trigger the geometry error. -/
theorem mergeSeries_error_cases_witness :
    c5D ∈ [c5D] ∧
    ¬ ((squeeze_image c5D).shape.length = 3 ∨
      (true = true ∧ (squeeze_image c5D).shape.length = 4)) ∧
    accumulate true [cP, cG2] = .ok cGframes ∧
    cG2 ∈ cGframes ∧
    (cG2.shape ≠ (cGframes.headD dImage).shape ∨
      cG2.affine ≠ (cGframes.headD dImage).affine) ∧
    mergeSeries [c5D] true = .error .dimensionError ∧
    mergeSeries [cP, cG2] true = .error .geometryMismatch := by
  have hmem : cG2 ∈ cGframes := by
    show cG2 ∈ [cP, cG2]
    simp
  have hsh : cG2.shape ≠ (cGframes.headD dImage).shape := by decide
  have hthm := mergeSeries_error_cases [c5D] true c5D [cP, cG2] true
    cGframes cG2 (by simp) (by decide) rfl hmem (Or.inl hsh)
  exact ⟨by simp, by decide, rfl, hmem, Or.inl hsh, hthm.1, hthm.2⟩

/-- C8 counterexample: two 3-D frames of equal shape whose affines differ
by `1e-12`, which `np.allclose` accepts; a tolerance-based comparison
would let the merge succeed, but the code raises the geometry error
because the concatenation compares affines by exact equality. -/
theorem mergeSeries_tolerance_cx :
    cP.shape = cH2.shape ∧
    allclose cP.affine cH2.affine = true ∧
    cP.affine ≠ cH2.affine ∧
    mergeSeries [cP, cH2] true = .error .geometryMismatch := by
  refine ⟨rfl, ?_, ?_, ?_⟩
  · norm_num [allclose, isclose, aabs, cP, cH2, eye4, eyeEps]
  · norm_num [cP, cH2, eye4, eyeEps]
  · have s1 : squeeze_image cP = cP := squeeze_of_len3 cP (by decide)
    have s2 : squeeze_image cH2 = cH2 := squeeze_of_len3 cH2 (by decide)
    have e1 : expandOne true cP = .ok [cP] := by
      rw [expandOne_of_len3 true cP (by decide), s1]
    have e2 : expandOne true cH2 = .ok [cH2] := by
      rw [expandOne_of_len3 true cH2 (by decide), s2]
    have hacc2 : accumulate true [cP, cH2] = .ok [cP, cH2] := by
      have := accumulate_cons true cP [cH2] [cP] [cH2] e1
        (by simpa using accumulate_cons true cH2 [] [cH2] [] e2 (by rw [accumulate]))
      simpa using this
    rw [mergeSeries, hacc2]
    exact concat_images_mismatch [cP, cH2] cH2 (by simp)
      (Or.inr (by simp only [List.headD_cons]; norm_num [cP, cH2, eye4, eyeEps]))

/-! ### Claim C1: the merge/split round trip -/

/-- C1 (code bug): the spec requires `SeriesSplitter` and `SeriesMerger`
to round-trip, but the code cannot: for distinct 3-D volumes with
identical spatial shape and affine the merge succeeds and yields a 4-D
volume with a non-empty last axis, and splitting that volume raises
`NameError` from the unimported `Path` (nibabel.py:129) before writing
any output, instead of returning `[A, B, C]` with indices `000`, `001`,
`002`. -/
theorem merge_split_roundtrip_name_error (A B C : Image)
    (hAB : A ≠ B) (hAC : A ≠ C) (hBC : B ≠ C)
    (h3 : A.shape.length = 3)
    (hsB : B.shape = A.shape) (hsC : C.shape = A.shape)
    (haB : B.affine = A.affine) (haC : C.affine = A.affine) :
    ∃ m, mergeSeries [A, B, C] true = .ok m ∧
      splitSeries m false = .error .nameError := by
  have sA : squeeze_image A = A := squeeze_of_len3 A h3
  have sB : squeeze_image B = B := squeeze_of_len3 B (by rw [hsB]; exact h3)
  have sC : squeeze_image C = C := squeeze_of_len3 C (by rw [hsC]; exact h3)
  have eA : expandOne true A = .ok [A] := by
    rw [expandOne_of_len3 true A (by rw [sA]; exact h3), sA]
  have eB : expandOne true B = .ok [B] := by
    rw [expandOne_of_len3 true B (by rw [sB, hsB]; exact h3), sB]
  have eC : expandOne true C = .ok [C] := by
    rw [expandOne_of_len3 true C (by rw [sC, hsC]; exact h3), sC]
  have t1 : accumulate true [C] = .ok [C] := by
    simpa using accumulate_cons true C [] [C] [] eC (by rw [accumulate])
  have t2 : accumulate true [B, C] = .ok [B, C] := by
    simpa using accumulate_cons true B [C] [B] [C] eB t1
  have hacc : accumulate true [A, B, C] = .ok [A, B, C] := by
    simpa using accumulate_cons true A [B, C] [A] [B, C] eA t2
  have hall : ∀ img ∈ [A, B, C], img.shape.length = A.shape.length ∧
      img.shape = A.shape ∧ img.affine = A.affine := by
    intro img him
    simp only [List.mem_cons, List.not_mem_nil, or_false] at him
    rcases him with rfl | rfl | rfl
    · exact ⟨rfl, rfl, rfl⟩
    · exact ⟨by rw [hsB], hsB, haB⟩
    · exact ⟨by rw [hsC], hsC, haC⟩
  have hm : mergeSeries [A, B, C] true = .ok
      (Image.mk (A.shape ++ [3])
        (fun idx => (([A, B, C]).getD (idx.getLastD 0) A).data idx.dropLast)
        A.affine A.header) := by
    rw [mergeSeries, hacc]
    simp only [concat_images]
    rw [if_pos hall]
    rfl
  refine ⟨_, hm, ?_⟩
  have hlen4 : (A.shape ++ [3]).length = 4 := by simp [h3]
  have hdrop : (A.shape ++ [3]).drop 3 = [3] := List.drop_left' h3
  have hc1 : ¬ (A.shape ++ [3]).length < 3 := by rw [hlen4]; omega
  have hc2 : trailingOnes ((A.shape ++ [3]).drop 3) = 0 := by rw [hdrop]; rfl
  have hsqM : squeeze_image (Image.mk (A.shape ++ [3])
      (fun idx => (([A, B, C]).getD (idx.getLastD 0) A).data idx.dropLast)
      A.affine A.header) = Image.mk (A.shape ++ [3])
      (fun idx => (([A, B, C]).getD (idx.getLastD 0) A).data idx.dropLast)
      A.affine A.header :=
    squeeze_id_of_no_trailing _ hc1 hc2
  have hN : (A.shape ++ [3]).getD 3 0 = 3 := by
    have h := getD_append_length A.shape 3
    rwa [h3] at h
  refine splitSeries_name_error_of_4d _ false ?_ ?_
  · rw [hsqM]
    exact hlen4
  · rw [hsqM]
    show (A.shape ++ [3]).getD 3 0 ≠ 0
    rw [hN]
    omega

/-- C1 witness: the failing round trip at three concrete distinct volumes
sharing shape and affine: the merge succeeds, the split of its output
raises `NameError`. -/
theorem merge_split_roundtrip_name_error_witness :
    cP ≠ cQ ∧ cP ≠ cR ∧ cQ ≠ cR ∧
    cP.shape.length = 3 ∧ cQ.shape = cP.shape ∧ cR.shape = cP.shape ∧
    cQ.affine = cP.affine ∧ cR.affine = cP.affine ∧
    (∃ m, mergeSeries [cP, cQ, cR] true = .ok m ∧
      splitSeries m false = .error .nameError) := by
  have d1 : cP ≠ cQ := by
    intro h
    have h2 := congrArg (fun im => im.data []) h
    simp only [cP, cQ] at h2
    norm_num at h2
  have d2 : cP ≠ cR := by
    intro h
    have h2 := congrArg (fun im => im.data []) h
    simp only [cP, cR] at h2
    norm_num at h2
  have d3 : cQ ≠ cR := by
    intro h
    have h2 := congrArg (fun im => im.data []) h
    simp only [cQ, cR] at h2
    norm_num at h2
  exact ⟨d1, d2, d3, by decide, rfl, rfl, rfl, rfl,
    merge_split_roundtrip_name_error cP cQ cR d1 d2 d3 (by decide)
      rfl rfl rfl rfl⟩


/-! ### Claim C9: validation before writes -/

/-- C9: for each of the four operations, on every input, all validation
happens before any output write: a trace that raises contains no write
event, so a failing run leaves the outputs untouched. -/
theorem no_partial_write_on_failure (img msknii bimg simg : Image)
    (acc : Bool) (files : List Image) (allow : Bool) :
    noPartialWrite (applyMaskTrace img msknii) = true ∧
    noPartialWrite (binarizeTrace bimg) = true ∧
    noPartialWrite (splitSeriesTrace simg acc) = true ∧
    noPartialWrite (mergeSeriesTrace files allow) = true := by
  refine ⟨?_, rfl, ?_, ?_⟩
  · unfold applyMaskTrace
    split
    · rfl
    · split
      · rfl
      · rfl
  · unfold splitSeriesTrace
    split
    · split
      · rfl
      · rfl
    · split
      · rfl
      · rfl
  · unfold mergeSeriesTrace
    split
    · rfl
    · split
      · rfl
      · rfl
